import Mathlib

/-!
Shallow embedding of the RoadShow ingestion pipeline.

The enrichment client lives in `src/ai/openaiService.ts` (class
`OpenAIService`); the scraper, asset downloader and URL collection live in
`src/scraper/craigslistScraper.ts` (class `CraigslistScraper`).  JavaScript
dynamic values reaching the validation layer are modelled by `JSValue`,
JavaScript numbers by `Option ℚ` with `none` playing the role of `NaN`
(the pipeline never produces infinities on the paths modelled here, and no
claim depends on floating-point rounding).
-/

namespace RoadShow

/-- Model of a JavaScript dynamic value as it can appear in a parsed JSON
payload field: `undef` stands for a missing property (`undefined`), the
rest are the JSON scalar shapes.  Composite objects/arrays do not occur in
the scalar fields the validators inspect. -/
inductive JSValue where
  | undef
  | null
  | bool (b : Bool)
  | num (q : ℚ)
  | str (s : String)
deriving DecidableEq

/-- Numeric value of a list of decimal digit characters. -/
def digitsToNat (cs : List Char) : Nat :=
  cs.foldl (fun a c => a * 10 + (c.toNat - 48)) 0

/-- Ten raised to an integer power, as a rational. -/
def pow10 (e : Int) : ℚ :=
  if 0 ≤ e then (10 : ℚ) ^ e.toNat else 1 / (10 : ℚ) ^ (-e).toNat

/-- Exponent digits of a JS numeric literal: nonempty all-digit suffix. -/
def parseExpDigits : List Char → Option Int
  | [] => none
  | cs => if cs.all Char.isDigit then some (digitsToNat cs) else none

/-- Optionally signed exponent digits. -/
def parseSignedExp : List Char → Option Int
  | '+' :: cs => parseExpDigits cs
  | '-' :: cs => (parseExpDigits cs).map Neg.neg
  | cs => parseExpDigits cs

/-- The optional exponent part (`e`/`E` followed by a signed integer); an
empty remainder means exponent 0, anything else is not numeric. -/
def parseExpPart : List Char → Option Int
  | [] => some 0
  | 'e' :: cs => parseSignedExp cs
  | 'E' :: cs => parseSignedExp cs
  | _ => none

/-- Unsigned decimal literal `digits [. digits] [exp]` with at least one
digit; returns `none` (NaN) when the characters are not such a literal. -/
def parseUnsignedDec (cs : List Char) : Option ℚ :=
  let ip := cs.takeWhile Char.isDigit
  let r1 := cs.dropWhile Char.isDigit
  match r1 with
  | '.' :: r2 =>
    let fp := r2.takeWhile Char.isDigit
    let r3 := r2.dropWhile Char.isDigit
    if ip.isEmpty && fp.isEmpty then none
    else
      (parseExpPart r3).map fun e =>
        ((digitsToNat ip : ℚ) + (digitsToNat fp : ℚ) / (10 : ℚ) ^ fp.length) * pow10 e
  | _ =>
    if ip.isEmpty then none
    else (parseExpPart r1).map fun e => (digitsToNat ip : ℚ) * pow10 e

/-- Leading and trailing whitespace stripped from a character list (the
trimming JS string coercions perform). -/
def jsTrim (cs : List Char) : List Char :=
  ((cs.dropWhile Char.isWhitespace).reverse.dropWhile Char.isWhitespace).reverse

/-- Model of JavaScript `String.toLowerCase` on the ASCII strings the
validator compares: lower-case every character. -/
def jsToLower (s : String) : String :=
  String.mk (s.data.map Char.toLower)

/-- Model of JavaScript `Number(string)`: trim whitespace, the empty string
is 0, otherwise an optionally signed decimal literal; any other string is
NaN (`none`).  (The hex/`Infinity` literal forms never reached on these
code paths are treated as NaN.) -/
def strToNumber (s : String) : Option ℚ :=
  match jsTrim s.data with
  | [] => some 0
  | '-' :: cs => (parseUnsignedDec cs).map Neg.neg
  | '+' :: cs => parseUnsignedDec cs
  | cs => parseUnsignedDec cs

/-- Model of JavaScript `Number(value)` coercion; `none` is NaN. -/
def jsNumber : JSValue → Option ℚ
  | .undef => none
  | .null => some 0
  | .bool b => some (if b then 1 else 0)
  | .num q => some q
  | .str s => strToNumber s

/-- Model of JavaScript `String(value)` coercion.  (For `num` the textual
format differs from JS float printing, but every rendering of a rational is
made of digits, `-` and `/`, so it is never in the categorical set the one
consumer, `validatePricingAssessment`, checks against.) -/
def jsString : JSValue → String
  | .undef => "undefined"
  | .null => "null"
  | .bool b => if b then "true" else "false"
  | .num q => toString q
  | .str s => s

/-- Structured analysis row (`AntiqueAnalysis` in `database/operations`):
every enrichment field the client produces. -/
structure AntiqueAnalysis where
  marketValue : ℚ
  pricingAssessment : String
  pricingConfidence : ℚ
  authenticityScore : ℚ
  authenticityTips : String
  historicalContext : String
  additionalNotes : String
deriving DecidableEq

/-- Source `OpenAIService.getDefaultAnalysis`: the fallback enrichment substituted
when the API fails. -/
def getDefaultAnalysis : AntiqueAnalysis :=
  { marketValue := 0
    pricingAssessment := "fair"
    pricingConfidence := 0
    authenticityScore := 0
    authenticityTips := "Analysis unavailable due to API error"
    historicalContext := "Analysis unavailable due to API error"
    additionalNotes := "Please try analyzing this item again later" }

/-- Source `OpenAIService.validateNumber`: `Number(value)`, defaulting on NaN. -/
def validateNumber (value : JSValue) (defaultValue : ℚ) : ℚ :=
  match jsNumber value with
  | none => defaultValue
  | some n => n

/-- Source `OpenAIService.validateConfidence`: `Number(value)`, 0 on NaN, then
clamp between 0 and 1 via `Math.max(0, Math.min(1, num))`. -/
def validateConfidence (value : JSValue) : ℚ :=
  match jsNumber value with
  | none => 0
  | some n => max 0 (min 1 n)

/-- Source `OpenAIService.validatePricingAssessment`: lower-case the string form
and keep it when it is in the fixed valid set, else default to "fair". -/
def validatePricingAssessment (value : JSValue) : String :=
  let validValues := ["underpriced", "overpriced", "fair"]
  let stringValue := jsToLower (jsString value)
  if stringValue ∈ validValues then stringValue else "fair"

/-- Source `OpenAIService.validateString`: keep a trimmed nonempty string, else
the default. -/
def validateString (value : JSValue) (defaultValue : String) : String :=
  match value with
  | .str s => if s.trim ≠ "" then s.trim else defaultValue
  | _ => defaultValue

/-- The JSON payload of an inference response, as `JSON.parse` delivers it:
each named field is a dynamic value (`undef` when the key is absent). -/
structure Payload where
  marketValue : JSValue
  pricingAssessment : JSValue
  pricingConfidence : JSValue
  authenticityScore : JSValue
  authenticityTips : JSValue
  historicalContext : JSValue
  additionalNotes : JSValue
deriving DecidableEq

/-- The `message.content` of an inference response as `parseResponse`
receives it: `empty` for `null`/empty content, `unparseable` when
`JSON.parse` throws, `parsed` for a successfully parsed payload. -/
inductive ResponseContent where
  | empty
  | unparseable
  | parsed (p : Payload)
deriving DecidableEq

/-- Source `OpenAIService.parseResponse`: fall back to the default analysis on
empty or unparseable content, otherwise validate every field. -/
def parseResponse (c : ResponseContent) : AntiqueAnalysis :=
  match c with
  | .empty => getDefaultAnalysis
  | .unparseable => getDefaultAnalysis
  | .parsed p =>
    { marketValue := validateNumber p.marketValue 0
      pricingAssessment := validatePricingAssessment p.pricingAssessment
      pricingConfidence := validateConfidence p.pricingConfidence
      authenticityScore := validateConfidence p.authenticityScore
      authenticityTips := validateString p.authenticityTips "No specific tips provided"
      historicalContext := validateString p.historicalContext "No historical context available"
      additionalNotes := validateString p.additionalNotes "No additional notes" }

/-- Outcome of one attempt of the OpenAI chat-completion call, indexed by
attempt number: a 429 rate-limit error, any other error, or a response
carrying content.  The oracle abstracts the network and the listing. -/
inductive ApiOutcome where
  | rateLimit
  | failure
  | success (c : ResponseContent)

/-- Attempt ceiling of `performAnalysis` (`maxRetries`). -/
def maxRetries : Nat := 3

/-- The retry loop body of `OpenAIService.performAnalysis`: `fuel` is the
number of loop iterations left (`maxRetries - attempt`).  A 429 backs off
and retries; another error rethrows on the final attempt and otherwise
backs off and retries; running out of iterations throws the final
"Failed to analyze antique" error.  Errors are collapsed to `Unit`. -/
def performAnalysisAux (api : Nat → ApiOutcome) : Nat → Nat → Except Unit AntiqueAnalysis
  | _, 0 => .error ()
  | attempt, f + 1 =>
    match api attempt with
    | .success c => .ok (parseResponse c)
    | .rateLimit => performAnalysisAux api (attempt + 1) f
    | .failure =>
      if f = 0 then .error () else performAnalysisAux api (attempt + 1) f

/-- Source `OpenAIService.performAnalysis`: run the retry loop from attempt 0. -/
def performAnalysis (api : Nat → ApiOutcome) : Except Unit AntiqueAnalysis :=
  performAnalysisAux api 0 maxRetries

/-- Source `OpenAIService.analyzeAntique`: submit the analysis through the queue
(the queue propagates the task's result) and catch any error, substituting
the default analysis. -/
def analyzeAntique (api : Nat → ApiOutcome) : AntiqueAnalysis :=
  match performAnalysis api with
  | .ok a => a
  | .error _ => getDefaultAnalysis

/-- What one search-results page yields in `collectListings`: the page
threw while being navigated/processed (`error`), showed the
`.alert-warning` no-results marker (`noResults`), or produced the listed
detail URLs (`ok`). -/
inductive PageResult where
  | error
  | noResults
  | ok (urls : List String)
deriving DecidableEq

/-- JavaScript `Set.add` on an insertion-ordered set modelled as a
duplicate-free list: append the element when it is not yet present. -/
def insertUrl (acc : List String) (u : String) : List String :=
  if u ∈ acc then acc else acc ++ [u]

/-- The page loop of `CraigslistScraper.collectListings`, driven by an
oracle giving each page's result.  Returns the accumulated URL set (in
insertion order, as `Array.from` enumerates a JS `Set`) together with the
list of page numbers actually navigated to.  `fuel` is the number of loop
iterations left (`maxPages - pageNum`).  An error page is caught, logged
and the loop continues with the next page number; a no-results page breaks;
a page shorter than `resultsPerPage` breaks after its URLs are added. -/
def collectAux (pages : Nat → PageResult) (rpp : Nat) :
    Nat → Nat → List String → List String × List Nat
  | _, 0, acc => (acc, [])
  | pageNum, fuel + 1, acc =>
    match pages pageNum with
    | .error =>
      let r := collectAux pages rpp (pageNum + 1) fuel acc
      (r.1, pageNum :: r.2)
    | .noResults => (acc, [pageNum])
    | .ok urls =>
      let acc' := urls.foldl insertUrl acc
      if urls.length < rpp then (acc', [pageNum])
      else
        let r := collectAux pages rpp (pageNum + 1) fuel acc'
        (r.1, pageNum :: r.2)

/-- The deduplicated URL set `collectListings` submits one detail-fetch
task per element of (`Array.from(listingUrls).map(url => queue.add(...))`). -/
def collectListingUrls (pages : Nat → PageResult) (maxPages rpp : Nat) : List String :=
  (collectAux pages rpp 0 maxPages []).1

/-- The search-results pages navigated to during URL collection. -/
def visitedPages (pages : Nat → PageResult) (maxPages rpp : Nat) : List Nat :=
  (collectAux pages rpp 0 maxPages []).2

/-- The DOM content of one listing detail page, as the selectors of
`scrapeListingPage`'s `page.evaluate` see it.  Each `getText` result is
the trimmed text content, `""` when the element is absent. -/
structure DetailPage where
  removed : Bool
  priceText : String
  titleText : String
  dateText : String
  mapAddressText : String
  mapboxSmallText : String
  descriptionText : String
  thumbDataSrcs : List (Option String)
  attrSpanTexts : List String
deriving DecidableEq

/-- JavaScript `String.replace` with a plain-string pattern: replace the
first occurrence only. -/
def replaceFirst (s pat repl : String) : String :=
  match s.splitOn pat with
  | [] => s
  | [x] => x
  | x :: y :: rest => x ++ repl ++ String.intercalate pat (y :: rest)

/-- JavaScript object assignment `m[k] = v` on a string map modelled as an
insertion-ordered association list: overwrite in place, else append. -/
def objSet (m : List (String × String)) (k v : String) : List (String × String) :=
  match m with
  | [] => [(k, v)]
  | (k', v') :: rest => if k' = k then (k, v) :: rest else (k', v') :: objSet rest k v

/-- One attribute span of the `.attrgroup` sections: a trimmed text with a
colon becomes a `key: value` entry (first two `split(':')` parts, each
trimmed), a bare nonempty text becomes a boolean-true entry, empty text is
skipped. -/
def addAttrSpan (m : List (String × String)) (t : String) : List (String × String) :=
  let text := t.trim
  if text ≠ "" && text.contains ':' then
    let parts := (text.splitOn ":").map String.trim
    objSet m (parts.headD "") (parts.tail.headD "")
  else if text ≠ "" then objSet m text "true"
  else m

/-- A scraped listing record (interface `ListingData`).  `price` is
`none` for a null price and `some none` when the cleaned price text
coerces to NaN; `postedDate` is an abstract timestamp. -/
structure ListingData where
  id : String
  url : String
  title : String
  price : Option (Option ℚ)
  description : String
  location : String
  postedDate : Int
  imageUrls : List String
  metadata : List (String × String)
deriving DecidableEq

/-- The fields `page.evaluate` extracts before the record is assembled. -/
structure EvalData where
  title : String
  price : Option (Option ℚ)
  description : String
  location : String
  postedDate : Int
  imageUrls : List String
  metadata : List (String × String)
deriving DecidableEq

/-- The `page.evaluate` body of `CraigslistScraper.scrapeListingPage`,
parametrised by the environment's `new Date(string)` parser (`none` for an
Invalid Date) and the current time `now`.  When the date text is present
but unparseable, `postedDate.toISOString()` throws a `RangeError` on the
Invalid Date and the whole evaluation rejects (`error`). -/
def evalListing (parseDate : String → Option Int) (now : Int) (pg : DetailPage) :
    Except Unit EvalData :=
  let price : Option (Option ℚ) :=
    if pg.priceText ≠ "" then
      some (strToNumber ((pg.priceText.replace "$" "").replace "," ""))
    else none
  let location := if pg.mapAddressText ≠ "" then pg.mapAddressText else pg.mapboxSmallText
  let imageUrls :=
    pg.thumbDataSrcs.filterMap fun o =>
      o.map fun dataSrc => replaceFirst dataSrc "50x50c" "600x450"
  let metadata := pg.attrSpanTexts.foldl addAttrSpan []
  if pg.dateText ≠ "" then
    match parseDate pg.dateText with
    | none => .error ()
    | some d =>
      .ok { title := pg.titleText, price, description := pg.descriptionText,
            location, postedDate := d, imageUrls, metadata }
  else
    .ok { title := pg.titleText, price, description := pg.descriptionText,
          location, postedDate := now, imageUrls, metadata }

/-- Source `CraigslistScraper.scrapeListingPage`: a removed/expired page yields no
record; a throwing evaluation is caught, logged, and yields no record;
otherwise the record is assembled around a fresh id. -/
def scrapeListingPage (parseDate : String → Option Int) (now : Int)
    (id url : String) (pg : DetailPage) : Option ListingData :=
  if pg.removed then none
  else
    match evalListing parseDate now pg with
    | .error _ => none
    | .ok d =>
      some { id, url, title := d.title, price := d.price,
             description := d.description, location := d.location,
             postedDate := d.postedDate, imageUrls := d.imageUrls,
             metadata := d.metadata }

/-- Model of JavaScript `parseInt(s, 10)`: skip leading whitespace, an
optional sign, then the longest digit run; no digits means NaN (`none`). -/
def parseIntJS (s : String) : Option Int :=
  match jsTrim s.data with
  | '-' :: cs =>
    let ds := cs.takeWhile Char.isDigit
    if ds.isEmpty then none else some (-(digitsToNat ds : Int))
  | '+' :: cs =>
    let ds := cs.takeWhile Char.isDigit
    if ds.isEmpty then none else some (digitsToNat ds)
  | cs =>
    let ds := cs.takeWhile Char.isDigit
    if ds.isEmpty then none else some (digitsToNat ds)

/-- The transport outcome of one image download: `ok` carries the
content-type and content-length headers and the number of bytes the
completed stream wrote to disk; `fail` is any error (network, timeout,
mid-stream), with the bytes written before failing (`none` when the file
was never created). -/
inductive TransportOutcome where
  | ok (contentTypeHeader : Option String) (contentLengthHeader : Option String) (bytes : Nat)
  | fail (written : Option Nat)
deriving DecidableEq

/-- Whether the transport completed. -/
def TransportOutcome.isOk : TransportOutcome → Bool
  | .ok _ _ _ => true
  | .fail _ => false

/-- One download task of `downloadImages`: the remote URL, the fresh
per-asset identifier (`uuidv4()`, collision-resistant), the extension
`getFileExtension` infers from the URL (already defaulted to `.jpg`), and
what the transport does for it. -/
structure DownloadTask where
  url : String
  imageId : String
  extension : String
  outcome : TransportOutcome
deriving DecidableEq

/-- The filename `downloadImage` derives: `listingId_imageId + extension`. -/
def filenameOf (listingId : String) (t : DownloadTask) : String :=
  listingId ++ "_" ++ t.imageId ++ t.extension

/-- The computed local path, `path.join(imageDir, filename)`. -/
def localPathOf (imageDir listingId : String) (t : DownloadTask) : String :=
  imageDir ++ "/" ++ filenameOf listingId t

/-- The local image directory as a map from path to file size in bytes. -/
def FS : Type := String → Option Nat

/-- Writing a file of `n` bytes at `p`. -/
def fsWrite (fs : FS) (p : String) (n : Nat) : FS :=
  fun q => if q = p then some n else fs q

/-- Unlink (`fs.unlink`) guarded by `existsSync`: afterwards no file is at `p`. -/
def fsUnlink (fs : FS) (p : String) : FS :=
  fun q => if q = p then none else fs q

/-- The empty image directory. -/
def fsEmpty : FS := fun _ => none

/-- Image row (interface `ImageData`).  `size` is a JS number that can be
NaN (`none`), since `parseInt` of a malformed content-length is NaN. -/
structure ImageData where
  id : String
  listingId : String
  filename : String
  originalUrl : String
  localPath : String
  contentType : String
  size : Option Int
deriving DecidableEq

/-- The returned row of a single download, independent of the directory
state: on success the content type defaults to `image/jpeg`, the
content length is `parseInt(header || '0', 10)`, and the recorded size is
`stats.size || contentLength` — the on-disk size unless it is 0 (falsy),
in which case the parsed header value is used.  A failed download returns
no row. -/
def downloadResult (imageDir listingId : String) (t : DownloadTask) : Option ImageData :=
  match t.outcome with
  | .ok ctH clH bytes =>
    let contentType := ctH.getD "image/jpeg"
    let contentLength := parseIntJS (clH.getD "0")
    some { id := t.imageId, listingId, filename := filenameOf listingId t,
           originalUrl := t.url, localPath := localPathOf imageDir listingId t,
           contentType,
           size := if bytes ≠ 0 then some (bytes : Int) else contentLength }
  | .fail _ => none

/-- Source `CraigslistScraper.downloadImage`: on success the streamed bytes are
at the local path and the row is returned; on failure whatever partial
file exists is unlinked and no row is returned. -/
def downloadImage (imageDir listingId : String) (t : DownloadTask) (fs : FS) :
    FS × Option ImageData :=
  match t.outcome with
  | .ok _ _ bytes =>
    (fsWrite fs (localPathOf imageDir listingId t) bytes,
     downloadResult imageDir listingId t)
  | .fail written =>
    let p := localPathOf imageDir listingId t
    let fsMid := match written with
      | none => fs
      | some n => fsWrite fs p n
    (fsUnlink fsMid p, none)

/-- Source `CraigslistScraper.downloadImages`: run every task and keep the
fulfilled non-null rows in task order (`Promise.allSettled` plus filter).
Concurrent interleaving is immaterial because each task touches only its
own path, so the fold is sequential. -/
def downloadImages (imageDir listingId : String) : List DownloadTask → FS → FS × List ImageData
  | [], fs => (fs, [])
  | t :: ts, fs =>
    let r := downloadImage imageDir listingId t fs
    let rest := downloadImages imageDir listingId ts r.1
    (rest.1, match r.2 with | some d => d :: rest.2 | none => rest.2)

/-- Example search oracle where the same URL is listed on two consecutive
full-enough result pages. -/
def pagesShared : Nat → PageResult := fun n =>
  if n = 0 then PageResult.ok ["x", "y"]
  else if n = 1 then PageResult.ok ["y"]
  else PageResult.noResults

/-- Example search oracle whose first page is short of the page size. -/
def pagesShort : Nat → PageResult := fun n =>
  if n = 0 then PageResult.ok ["a"] else PageResult.ok ["b", "c"]

/-- Example search oracle whose first page throws during processing. -/
def pagesErr : Nat → PageResult := fun n =>
  if n = 0 then PageResult.error else PageResult.ok ["a"]

/-- Example download task whose transport fails after writing 10 bytes. -/
def taskFailing : DownloadTask :=
  { url := "http://img.example/1.jpg", imageId := "id1", extension := ".jpg",
    outcome := TransportOutcome.fail (some 10) }

/-- Example download task whose transport streams 42 bytes, with a
content-length header claiming 500. -/
def taskStreamed : DownloadTask :=
  { url := "http://img.example/2.jpg", imageId := "id2", extension := ".jpg",
    outcome := TransportOutcome.ok none (some "500") 42 }

/-- Example download task whose transport completes with an empty body (0
bytes on disk) while the content-length header claims 500. -/
def taskEmptyBody : DownloadTask :=
  { url := "http://img.example/3.jpg", imageId := "id3", extension := ".jpg",
    outcome := TransportOutcome.ok none (some "500") 0 }

/-- Example detail page whose posting-date text is present but is not a
parseable date. -/
def badDatePage : DetailPage :=
  { removed := false, priceText := "", titleText := "Old clock",
    dateText := "around 1900", mapAddressText := "", mapboxSmallText := "",
    descriptionText := "", thumbDataSrcs := [], attrSpanTexts := [] }

/-- Example detail page with no posting-date text at all. -/
def noDatePage : DetailPage :=
  { badDatePage with dateText := "" }

/-- An inference payload whose numeric market-value field carries the
"$1,250"-style contamination, all other fields absent. -/
def contaminatedPayload : Payload :=
  { marketValue := JSValue.str "$1,250"
    pricingAssessment := JSValue.undef
    pricingConfidence := JSValue.undef
    authenticityScore := JSValue.undef
    authenticityTips := JSValue.undef
    historicalContext := JSValue.undef
    additionalNotes := JSValue.undef }

/-- C3: for every input value to the confidence/score validation step —
negative, greater than 1, non-numeric or missing — the validated result is
a number in the closed interval [0,1]. -/
theorem validateConfidence_mem_unitInterval (value : JSValue) :
    0 ≤ validateConfidence value ∧ validateConfidence value ≤ 1 := by
  unfold validateConfidence
  cases jsNumber value with
  | none => exact ⟨le_refl 0, zero_le_one⟩
  | some n => exact ⟨le_max_left 0 _, max_le zero_le_one (min_le_left 1 n)⟩

/-- C4: a categorical pricing-assessment input whose case-insensitive form
is not one of "underpriced", "overpriced", "fair" validates to "fair";
an input in that set (in any case) validates to its lower-cased form. -/
theorem validatePricingAssessment_cases (value : JSValue) :
    ((jsToLower (jsString value) = "underpriced" ∨ jsToLower (jsString value) = "overpriced" ∨
        jsToLower (jsString value) = "fair") →
      validatePricingAssessment value = jsToLower (jsString value)) ∧
    (¬(jsToLower (jsString value) = "underpriced" ∨ jsToLower (jsString value) = "overpriced" ∨
        jsToLower (jsString value) = "fair") →
      validatePricingAssessment value = "fair") := by
  have hm : (jsToLower (jsString value) ∈ (["underpriced", "overpriced", "fair"] : List String)) ↔
      (jsToLower (jsString value) = "underpriced" ∨ jsToLower (jsString value) = "overpriced" ∨
        jsToLower (jsString value) = "fair") := by
    simp
  constructor
  · intro h
    show (if jsToLower (jsString value) ∈ (["underpriced", "overpriced", "fair"] : List String)
          then jsToLower (jsString value) else "fair") = jsToLower (jsString value)
    rw [if_pos (hm.mpr h)]
  · intro h
    show (if jsToLower (jsString value) ∈ (["underpriced", "overpriced", "fair"] : List String)
          then jsToLower (jsString value) else "fair") = "fair"
    rw [if_neg (fun hc => h (hm.mp hc))]

/-- Witness for C4: "FAIR" is in the valid set and validates to its
lower-cased form, "cheap" is not and validates to "fair". -/
theorem validatePricingAssessment_cases_witness :
    validatePricingAssessment (JSValue.str "FAIR") = "fair" ∧
    validatePricingAssessment (JSValue.str "cheap") = "fair" := by
  have h1 := (validatePricingAssessment_cases (JSValue.str "FAIR")).1
  have h2 := (validatePricingAssessment_cases (JSValue.str "cheap")).2
  have hl : jsToLower (jsString (JSValue.str "FAIR")) = "fair" := by decide
  exact ⟨by rw [h1 (Or.inr (Or.inr hl)), hl], h2 (by decide)⟩

/-- C5: a payload whose numeric market-value field carries "$1,250"-style
contamination parses to a plain number: `Number("$1,250")` is NaN (the
currency symbol and separator make it non-numeric residue), so the
validated market value is the stage's default 0 — no currency symbol or
separator is carried through. -/
theorem parseResponse_contaminated_marketValue (p : Payload)
    (h : p.marketValue = JSValue.str "$1,250") :
    (parseResponse (ResponseContent.parsed p)).marketValue = 0 := by
  have hnan : jsNumber (JSValue.str "$1,250") = none := by decide
  simp [parseResponse, validateNumber, h, hnan]

/-- Witness for C5: the contaminated payload evaluates to market value 0. -/
theorem parseResponse_contaminated_marketValue_witness :
    (parseResponse (ResponseContent.parsed contaminatedPayload)).marketValue = 0 :=
  parseResponse_contaminated_marketValue contaminatedPayload rfl

/-- C1: whenever the internal retry loop (`performAnalysis`) throws after
exhausting all attempts, the outward-facing `analyzeAntique` still returns
the fallback Enrichment — market value 0, assessment "fair", confidence 0,
authenticity score 0, placeholder text fields — instead of propagating. -/
theorem analyzeAntique_fallback_on_exhausted_retries (api : Nat → ApiOutcome)
    (h : ∃ e, performAnalysis api = Except.error e) :
    analyzeAntique api = getDefaultAnalysis ∧
    getDefaultAnalysis =
      { marketValue := 0
        pricingAssessment := "fair"
        pricingConfidence := 0
        authenticityScore := 0
        authenticityTips := "Analysis unavailable due to API error"
        historicalContext := "Analysis unavailable due to API error"
        additionalNotes := "Please try analyzing this item again later" } := by
  obtain ⟨e, he⟩ := h
  exact ⟨by simp [analyzeAntique, he], rfl⟩

/-- Witness for C1: an API that fails on every attempt exhausts the retry
loop, and `analyzeAntique` returns the fallback analysis. -/
theorem analyzeAntique_fallback_witness :
    analyzeAntique (fun _ => ApiOutcome.failure) = getDefaultAnalysis :=
  (analyzeAntique_fallback_on_exhausted_retries (fun _ => ApiOutcome.failure) ⟨(), rfl⟩).1

theorem insertUrl_nodup {acc : List String} (h : acc.Nodup) (u : String) :
    (insertUrl acc u).Nodup := by
  unfold insertUrl
  by_cases hm : u ∈ acc
  · simpa [hm] using h
  · simp [hm, List.nodup_append, h]

theorem mem_insertUrl_self (acc : List String) (u : String) : u ∈ insertUrl acc u := by
  unfold insertUrl
  by_cases hm : u ∈ acc <;> simp [hm]

theorem mem_insertUrl_of_mem {acc : List String} {v : String} (h : v ∈ acc) (u : String) :
    v ∈ insertUrl acc u := by
  unfold insertUrl
  by_cases hm : u ∈ acc <;> simp [hm, h]

theorem foldl_insertUrl_nodup (l : List String) :
    ∀ acc : List String, acc.Nodup → (l.foldl insertUrl acc).Nodup := by
  induction l with
  | nil => exact fun acc h => h
  | cons x xs ih => exact fun acc h => ih _ (insertUrl_nodup h x)

theorem mem_foldl_insertUrl_of_mem_acc {v : String} (l : List String) :
    ∀ acc : List String, v ∈ acc → v ∈ l.foldl insertUrl acc := by
  induction l with
  | nil => exact fun acc h => h
  | cons x xs ih => exact fun acc h => ih _ (mem_insertUrl_of_mem h x)

theorem mem_foldl_insertUrl_of_mem_list {v : String} {l : List String} (hv : v ∈ l) :
    ∀ acc : List String, v ∈ l.foldl insertUrl acc := by
  induction l with
  | nil => cases hv
  | cons x xs ih =>
    intro acc
    rcases List.mem_cons.mp hv with rfl | hv'
    · exact mem_foldl_insertUrl_of_mem_acc xs _ (mem_insertUrl_self acc v)
    · exact ih hv' _

theorem collectAux_error_step (pages : Nat → PageResult) (rpp pageNum fuel : Nat)
    (acc : List String) (hp : pages pageNum = PageResult.error) :
    collectAux pages rpp pageNum (fuel + 1) acc =
      ((collectAux pages rpp (pageNum + 1) fuel acc).1,
       pageNum :: (collectAux pages rpp (pageNum + 1) fuel acc).2) := by
  simp [collectAux, hp]

theorem collectAux_noResults_step (pages : Nat → PageResult) (rpp pageNum fuel : Nat)
    (acc : List String) (hp : pages pageNum = PageResult.noResults) :
    collectAux pages rpp pageNum (fuel + 1) acc = (acc, [pageNum]) := by
  simp [collectAux, hp]

theorem collectAux_ok_last (pages : Nat → PageResult) (rpp pageNum fuel : Nat)
    (acc urls : List String) (hp : pages pageNum = PageResult.ok urls)
    (hlen : urls.length < rpp) :
    collectAux pages rpp pageNum (fuel + 1) acc = (urls.foldl insertUrl acc, [pageNum]) := by
  simp [collectAux, hp, hlen]

theorem collectAux_ok_step (pages : Nat → PageResult) (rpp pageNum fuel : Nat)
    (acc urls : List String) (hp : pages pageNum = PageResult.ok urls)
    (hlen : ¬urls.length < rpp) :
    collectAux pages rpp pageNum (fuel + 1) acc =
      ((collectAux pages rpp (pageNum + 1) fuel (urls.foldl insertUrl acc)).1,
       pageNum :: (collectAux pages rpp (pageNum + 1) fuel (urls.foldl insertUrl acc)).2) := by
  simp [collectAux, hp, hlen]

theorem collectAux_nodup (pages : Nat → PageResult) (rpp : Nat) :
    ∀ fuel pageNum acc, List.Nodup acc → ((collectAux pages rpp pageNum fuel acc).1).Nodup := by
  intro fuel
  induction fuel with
  | zero => intro pageNum acc h; simpa [collectAux] using h
  | succ f ih =>
    intro pageNum acc h
    cases hp : pages pageNum with
    | error => rw [collectAux_error_step pages rpp pageNum f acc hp]; exact ih _ _ h
    | noResults => rw [collectAux_noResults_step pages rpp pageNum f acc hp]; exact h
    | ok urls =>
      by_cases hlen : urls.length < rpp
      · rw [collectAux_ok_last pages rpp pageNum f acc urls hp hlen]
        exact foldl_insertUrl_nodup urls acc h
      · rw [collectAux_ok_step pages rpp pageNum f acc urls hp hlen]
        exact ih _ _ (foldl_insertUrl_nodup urls acc h)

theorem mem_collectAux_of_mem_acc (pages : Nat → PageResult) (rpp : Nat) {v : String} :
    ∀ fuel pageNum acc, v ∈ acc → v ∈ (collectAux pages rpp pageNum fuel acc).1 := by
  intro fuel
  induction fuel with
  | zero => intro pageNum acc h; simpa [collectAux] using h
  | succ f ih =>
    intro pageNum acc h
    cases hp : pages pageNum with
    | error => rw [collectAux_error_step pages rpp pageNum f acc hp]; exact ih _ _ h
    | noResults => rw [collectAux_noResults_step pages rpp pageNum f acc hp]; exact h
    | ok urls =>
      by_cases hlen : urls.length < rpp
      · rw [collectAux_ok_last pages rpp pageNum f acc urls hp hlen]
        exact mem_foldl_insertUrl_of_mem_acc urls acc h
      · rw [collectAux_ok_step pages rpp pageNum f acc urls hp hlen]
        exact ih _ _ (mem_foldl_insertUrl_of_mem_acc urls acc h)

/-- C7: a detail URL listed on two different result pages is submitted for
detail fetching exactly once, and the submitted URL set has no duplicates. -/
theorem collect_unique_detail_fetch (pages : Nat → PageResult) (maxPages rpp : Nat)
    (u : String) (l0 l1 : List String)
    (h0 : pages 0 = PageResult.ok l0) (h1 : pages 1 = PageResult.ok l1)
    (hu0 : u ∈ l0) (hu1 : u ∈ l1) (hfull : rpp ≤ l0.length) (hmp : 2 ≤ maxPages) :
    (collectListingUrls pages maxPages rpp).count u = 1 ∧
    (collectListingUrls pages maxPages rpp).Nodup := by
  obtain ⟨m, rfl⟩ : ∃ m, maxPages = m + 1 + 1 := ⟨maxPages - 2, by omega⟩
  have hnl0 : ¬l0.length < rpp := not_lt.mpr hfull
  have hnodup2 : (l1.foldl insertUrl (l0.foldl insertUrl [])).Nodup :=
    foldl_insertUrl_nodup l1 _ (foldl_insertUrl_nodup l0 [] List.nodup_nil)
  have hmem2 : u ∈ l1.foldl insertUrl (l0.foldl insertUrl []) :=
    mem_foldl_insertUrl_of_mem_list hu1 _
  unfold collectListingUrls
  rw [collectAux_ok_step pages rpp 0 (m + 1) [] l0 h0 hnl0]
  by_cases hlen1 : l1.length < rpp
  · rw [collectAux_ok_last pages rpp 1 m _ l1 h1 hlen1]
    exact ⟨List.count_eq_one_of_mem hnodup2 hmem2, hnodup2⟩
  · rw [collectAux_ok_step pages rpp 1 m _ l1 h1 hlen1]
    have hnodup := collectAux_nodup pages rpp m 2 _ hnodup2
    have hmem := mem_collectAux_of_mem_acc pages rpp m 2 _ hmem2
    exact ⟨List.count_eq_one_of_mem hnodup hmem, hnodup⟩

/-- Witness for C7: "y" appears on both of the first two result pages and
is submitted exactly once. -/
theorem collect_unique_detail_fetch_witness :
    (collectListingUrls pagesShared 5 2).count "y" = 1 ∧
    (collectListingUrls pagesShared 5 2).Nodup :=
  collect_unique_detail_fetch pagesShared 5 2 "y" ["x", "y"] ["y"] rfl rfl
    (by decide) (by decide) (by decide) (by decide)

theorem collectAux_visited_spec (pages : Nat → PageResult) (rpp : Nat) :
    ∀ fuel pageNum acc,
      ((collectAux pages rpp pageNum fuel acc).2).length ≤ fuel ∧
      (∀ k ∈ (collectAux pages rpp pageNum fuel acc).2, pageNum ≤ k) ∧
      (∀ k l, k ∈ (collectAux pages rpp pageNum fuel acc).2 → pages k = PageResult.ok l →
        l.length < rpp → ∀ j ∈ (collectAux pages rpp pageNum fuel acc).2, j ≤ k) := by
  intro fuel
  induction fuel with
  | zero => intro pageNum acc; simp [collectAux]
  | succ f ih =>
    intro pageNum acc
    cases hp : pages pageNum with
    | error =>
      rw [collectAux_error_step pages rpp pageNum f acc hp]
      dsimp only
      obtain ⟨ihlen, ihge, ihstop⟩ := ih (pageNum + 1) acc
      refine ⟨by simpa using ihlen, ?_, ?_⟩
      · intro k hk
        rcases List.mem_cons.mp hk with rfl | hk'
        · exact le_refl k
        · exact le_trans (Nat.le_succ pageNum) (ihge k hk')
      · intro k l hk hok hlen j hj
        rcases List.mem_cons.mp hk with rfl | hk'
        · rw [hp] at hok; cases hok
        · rcases List.mem_cons.mp hj with rfl | hj'
          · exact le_trans (Nat.le_succ j) (ihge k hk')
          · exact ihstop k l hk' hok hlen j hj'
    | noResults =>
      rw [collectAux_noResults_step pages rpp pageNum f acc hp]
      dsimp only
      refine ⟨by simp, fun k hk => ?_, fun k l hk hok hlen j hj => ?_⟩
      · rcases List.mem_singleton.mp hk with rfl; exact le_refl k
      · rcases List.mem_singleton.mp hk with rfl
        rcases List.mem_singleton.mp hj with rfl
        exact le_refl j
    | ok urls =>
      by_cases hlen : urls.length < rpp
      · rw [collectAux_ok_last pages rpp pageNum f acc urls hp hlen]
        dsimp only
        refine ⟨by simp, fun k hk => ?_, fun k l hk hok hl j hj => ?_⟩
        · rcases List.mem_singleton.mp hk with rfl; exact le_refl k
        · rcases List.mem_singleton.mp hk with rfl
          rcases List.mem_singleton.mp hj with rfl
          exact le_refl j
      · rw [collectAux_ok_step pages rpp pageNum f acc urls hp hlen]
        dsimp only
        obtain ⟨ihlen, ihge, ihstop⟩ := ih (pageNum + 1) (urls.foldl insertUrl acc)
        refine ⟨by simpa using ihlen, ?_, ?_⟩
        · intro k hk
          rcases List.mem_cons.mp hk with rfl | hk'
          · exact le_refl k
          · exact le_trans (Nat.le_succ pageNum) (ihge k hk')
        · intro k l hk hok hl j hj
          rcases List.mem_cons.mp hk with rfl | hk'
          · rw [hp] at hok
            cases hok
            exact absurd hl hlen
          · rcases List.mem_cons.mp hj with rfl | hj'
            · exact le_trans (Nat.le_succ j) (ihge k hk')
            · exact ihstop k l hk' hok hl j hj'

/-- C8: a visited result page whose extracted listing count is strictly
below the configured page size terminates pagination — no later page
number is ever visited — and the loop visits at most the configured
maximum number of pages. -/
theorem collect_pagination_stops_on_short_page (pages : Nat → PageResult) (maxPages rpp : Nat) :
    (visitedPages pages maxPages rpp).length ≤ maxPages ∧
    ∀ k l, k ∈ visitedPages pages maxPages rpp → pages k = PageResult.ok l →
      l.length < rpp → ∀ j ∈ visitedPages pages maxPages rpp, j ≤ k := by
  obtain ⟨hlen, _, hstop⟩ := collectAux_visited_spec pages rpp maxPages 0 []
  exact ⟨hlen, hstop⟩

/-- Witness for C8: with a first page below the page size, only page 0 is
visited of the configured maximum of 5. -/
theorem collect_pagination_stops_witness :
    (visitedPages pagesShort 5 2).length ≤ 5 ∧ ∀ j ∈ visitedPages pagesShort 5 2, j ≤ 0 := by
  have h := collect_pagination_stops_on_short_page pagesShort 5 2
  exact ⟨h.1, h.2 0 ["a"] (by decide) rfl (by decide)⟩

/-- C10: a search-results page that throws during navigation/processing is
absorbed: the collection loop proceeds to the next page number with the
same accumulated URL set, neither terminating pagination nor aborting. -/
theorem collect_error_page_continues (pages : Nat → PageResult) (rpp k fuel : Nat)
    (acc : List String) (h : pages k = PageResult.error) :
    (collectAux pages rpp k (fuel + 1) acc).1 = (collectAux pages rpp (k + 1) fuel acc).1 ∧
    (collectAux pages rpp k (fuel + 1) acc).2 =
      k :: (collectAux pages rpp (k + 1) fuel acc).2 := by
  rw [collectAux_error_step pages rpp k fuel acc h]
  exact ⟨rfl, rfl⟩

/-- Witness for C10: a throwing first page is skipped and collection
continues with page 1. -/
theorem collect_error_page_continues_witness :
    (collectAux pagesErr 2 0 (1 + 1) []).1 = (collectAux pagesErr 2 1 1 []).1 ∧
    (collectAux pagesErr 2 0 (1 + 1) []).2 = 0 :: (collectAux pagesErr 2 1 1 []).2 :=
  collect_error_page_continues pagesErr 2 0 1 [] rfl

theorem downloadResult_fail {d l : String} {t : DownloadTask}
    (hfail : t.outcome.isOk = false) : downloadResult d l t = none := by
  cases ht : t.outcome with
  | ok a b c => rw [ht] at hfail; simp [TransportOutcome.isOk] at hfail
  | fail w => simp [downloadResult, ht]

theorem downloadImage_snd (d l : String) (t : DownloadTask) (fs : FS) :
    (downloadImage d l t fs).2 = downloadResult d l t := by
  cases ht : t.outcome with
  | ok a b c => simp [downloadImage, ht]
  | fail w => simp [downloadImage, downloadResult, ht]

theorem downloadImages_results (d l : String) :
    ∀ (tasks : List DownloadTask) (fs : FS),
      (downloadImages d l tasks fs).2 = tasks.filterMap (downloadResult d l) := by
  intro tasks
  induction tasks with
  | nil => intro fs; rfl
  | cons t ts ih =>
    intro fs
    have hsnd : (downloadImages d l (t :: ts) fs).2 =
        match (downloadImage d l t fs).2 with
        | some d' => d' :: (downloadImages d l ts (downloadImage d l t fs).1).2
        | none => (downloadImages d l ts (downloadImage d l t fs).1).2 := rfl
    rw [hsnd, downloadImage_snd]
    cases hr : downloadResult d l t <;> simp [hr, ih, List.filterMap_cons]

theorem downloadImage_fst_other (d l : String) (t : DownloadTask) (fs : FS) (q : String)
    (hq : q ≠ localPathOf d l t) : (downloadImage d l t fs).1 q = fs q := by
  cases ht : t.outcome with
  | ok a b c => simp [downloadImage, ht, fsWrite, hq]
  | fail w => cases w <;> simp [downloadImage, ht, fsWrite, fsUnlink, hq]

theorem downloadImage_fail_fst_self (d l : String) (t : DownloadTask) (fs : FS)
    (hfail : t.outcome.isOk = false) :
    (downloadImage d l t fs).1 (localPathOf d l t) = none := by
  cases ht : t.outcome with
  | ok a b c => rw [ht] at hfail; simp [TransportOutcome.isOk] at hfail
  | fail w => cases w <;> simp [downloadImage, ht, fsUnlink]

theorem downloadImages_fst_other (d l : String) :
    ∀ (tasks : List DownloadTask) (fs : FS) (q : String),
      (∀ t' ∈ tasks, q ≠ localPathOf d l t') →
      (downloadImages d l tasks fs).1 q = fs q := by
  intro tasks
  induction tasks with
  | nil => intro fs q _; rfl
  | cons t ts ih =>
    intro fs q hq
    have hfst : (downloadImages d l (t :: ts) fs).1 =
        (downloadImages d l ts (downloadImage d l t fs).1).1 := rfl
    rw [hfst, ih (downloadImage d l t fs).1 q (fun t' ht' => hq t' (List.mem_cons_of_mem t ht'))]
    exact downloadImage_fst_other d l t fs q (hq t (List.mem_cons_self t ts))

theorem downloadImages_fail_cleanup (d l : String) :
    ∀ (tasks : List DownloadTask) (fs : FS) (t : DownloadTask), t ∈ tasks →
      (tasks.map (localPathOf d l)).Nodup → t.outcome.isOk = false →
      (downloadImages d l tasks fs).1 (localPathOf d l t) = none := by
  intro tasks
  induction tasks with
  | nil => intro fs t h; cases h
  | cons t' ts ih =>
    intro fs t hmem hnodup hfail
    have hfst : (downloadImages d l (t' :: ts) fs).1 =
        (downloadImages d l ts (downloadImage d l t' fs).1).1 := rfl
    rcases List.mem_cons.mp hmem with rfl | hmem'
    · rw [hfst, downloadImages_fst_other d l ts _ _ ?hq]
      · exact downloadImage_fail_fst_self d l t fs hfail
      case hq =>
        intro t'' ht'' he
        exact (List.nodup_cons.mp hnodup).1 (he ▸ List.mem_map_of_mem (localPathOf d l) ht'')
    · rw [hfst]
      exact ih _ t hmem' (List.nodup_cons.mp hnodup).2 hfail

/-- C2: a download task whose transport fails leaves no file at its
computed local path after the whole batch (both right after the failing
download and at the end), contributes no row, and `downloadImages` still
returns exactly the rows of the tasks that succeeded. -/
theorem downloadImages_failed_url_no_partial (imageDir listingId : String)
    (tasks : List DownloadTask) (fs : FS) (t : DownloadTask)
    (hmem : t ∈ tasks)
    (hnodup : (tasks.map (localPathOf imageDir listingId)).Nodup)
    (hfail : t.outcome.isOk = false) :
    (downloadImage imageDir listingId t fs).1 (localPathOf imageDir listingId t) = none ∧
    (downloadImages imageDir listingId tasks fs).1 (localPathOf imageDir listingId t) = none ∧
    downloadResult imageDir listingId t = none ∧
    (downloadImages imageDir listingId tasks fs).2 =
      tasks.filterMap (downloadResult imageDir listingId) :=
  ⟨downloadImage_fail_fst_self imageDir listingId t fs hfail,
   downloadImages_fail_cleanup imageDir listingId tasks fs t hmem hnodup hfail,
   downloadResult_fail hfail,
   downloadImages_results imageDir listingId tasks fs⟩

/-- Witness for C2: of a failing and a successful download, the failing
one leaves no file and no row while the successful one's row is kept. -/
theorem downloadImages_failed_url_no_partial_witness :
    (downloadImage "images" "L1" taskFailing fsEmpty).1
      (localPathOf "images" "L1" taskFailing) = none ∧
    (downloadImages "images" "L1" [taskFailing, taskStreamed] fsEmpty).1
      (localPathOf "images" "L1" taskFailing) = none ∧
    downloadResult "images" "L1" taskFailing = none ∧
    (downloadImages "images" "L1" [taskFailing, taskStreamed] fsEmpty).2 =
      [taskFailing, taskStreamed].filterMap (downloadResult "images" "L1") :=
  downloadImages_failed_url_no_partial "images" "L1" [taskFailing, taskStreamed] fsEmpty
    taskFailing (List.mem_cons_self taskFailing [taskStreamed]) (by decide) rfl

/-- C9 counterexample: a completed download whose file on disk is 0 bytes
while the content-length header says 500 records size 500 — the header,
not the on-disk size — so the recorded size is not always the size read
back from the written file. -/
theorem downloadImage_size_header_counterexample :
    (downloadResult "images" "L1" taskEmptyBody).map ImageData.size = some (some 500) ∧
    (downloadImage "images" "L1" taskEmptyBody fsEmpty).1
      (localPathOf "images" "L1" taskEmptyBody) = some 0 ∧
    (some (500 : Int) : Option Int) ≠ some (0 : Int) := by
  refine ⟨by decide, by decide, by decide⟩

/-- C9 amended: for a successfully downloaded asset whose written file is
nonempty, the recorded byte size is the size read back from the file on
disk, regardless of the content-length header; only a zero-size file falls
back to the parsed header value. -/
theorem downloadImage_size_from_disk_when_nonzero (imageDir listingId : String)
    (t : DownloadTask) (fs : FS) (ctH clH : Option String) (bytes : Nat)
    (hok : t.outcome = TransportOutcome.ok ctH clH bytes) (hnz : bytes ≠ 0) :
    (downloadResult imageDir listingId t).map ImageData.size = some (some (bytes : Int)) ∧
    (downloadImage imageDir listingId t fs).1 (localPathOf imageDir listingId t) =
      some bytes := by
  constructor
  · simp [downloadResult, hok, hnz]
  · simp [downloadImage, hok, fsWrite]

/-- Witness for C9 amended: a 42-byte file is recorded as 42 bytes even
though the header claims 500. -/
theorem downloadImage_size_from_disk_witness :
    (downloadResult "images" "L1" taskStreamed).map ImageData.size =
      some (some ((42 : Nat) : Int)) ∧
    (downloadImage "images" "L1" taskStreamed fsEmpty).1
      (localPathOf "images" "L1" taskStreamed) = some 42 :=
  downloadImage_size_from_disk_when_nonzero "images" "L1" taskStreamed fsEmpty
    none (some "500") 42 rfl (by decide)

/-- C6 counterexample: a detail page that is not removed and whose
posting-date text is present but unparseable yields no record at all —
`new Date(text)` is an Invalid Date, `toISOString()` throws inside the
evaluation, and the catch drops the listing — rather than substituting the
fetch time and yielding the record. -/
theorem scrape_unparseable_date_counterexample :
    badDatePage.removed = false ∧ badDatePage.dateText ≠ "" ∧
    scrapeListingPage (fun _ => none) 0 "id0" "http://listing.example/1" badDatePage =
      none := by
  refine ⟨rfl, by decide, rfl⟩

/-- C6 amended: when the posting-date text is absent the fetch substitutes
the fetch time and still yields the record; when the text is present but
unparseable the evaluation throws and the fetch yields no record for that
URL. -/
theorem scrape_date_handling (parseDate : String → Option Int) (now : Int)
    (id url : String) (pg : DetailPage) (hrem : pg.removed = false) :
    (pg.dateText = "" →
      (scrapeListingPage parseDate now id url pg).map ListingData.postedDate = some now) ∧
    (pg.dateText ≠ "" → parseDate pg.dateText = none →
      scrapeListingPage parseDate now id url pg = none) := by
  constructor
  · intro hd
    simp [scrapeListingPage, hrem, evalListing, hd]
  · intro hd hp
    simp [scrapeListingPage, hrem, evalListing, hd, hp]

/-- Witness for C6 amended: an empty date text yields the record stamped
with the fetch time, an unparseable one yields no record. -/
theorem scrape_date_handling_witness :
    (scrapeListingPage (fun _ => none) 99 "id0" "http://listing.example/1"
        noDatePage).map ListingData.postedDate = some 99 ∧
    scrapeListingPage (fun _ => none) 99 "id0" "http://listing.example/1" badDatePage =
      none :=
  ⟨(scrape_date_handling (fun _ => none) 99 "id0" "http://listing.example/1"
      noDatePage rfl).1 rfl,
   (scrape_date_handling (fun _ => none) 99 "id0" "http://listing.example/1"
      badDatePage rfl).2 (by decide) rfl⟩

end RoadShow
